import Mathlib

/-!
Shallow embedding of the powerlytic-be device-telemetry transformation
pipeline, together with theorems checking the design document against it.

Embedded source files:
* `src/utils/transformers/modbusTransformer.ts` — register codec
  (`applyEndianness`, `bufferToUnsignedInt`, `parseRegistersToValue`,
  `transformModbusRead`) and the read-configuration index
  (`buildReadConfigMap`).
* `src/modules/Value/valueTransformation.service.ts` — the value
  transformer (`transformDevicePayload`, `transformDigitalAnalogValue`,
  `transformModbusValues`).

Modelling conventions:
* Node `Buffer`s of bytes are `List ℕ` with every entry < 256; 16-bit
  register words are `ℕ`.  `Buffer.writeUInt16BE` throws a `RangeError`
  when its argument is outside `[0, 65535]`, so functions that serialize
  registers return `Option`/fail on out-of-range words.
* JavaScript numbers used for calibration (scaling/offset) are modelled
  as `ℚ`; the concrete calibration values exercised by every theorem
  below are small integers, exactly representable in IEEE doubles, so no
  floating-point rounding is lost by this choice.  The one place where
  double-precision rounding is essential — converting a 64-bit `BigInt`
  register value back to a JavaScript number — is modelled exactly by
  `natToFloat64` (round to 53 significant bits, ties to even).
* The Mongo device lookup at the top of `transformDevicePayload` is
  represented by passing the lookup's result (`Option Device`) as an
  argument; everything after the lookup is in-memory computation and is
  embedded directly.
* `console.warn` / `console.error` calls are modelled as an emitted list
  of `LogEntry` values so that "skipped with a warning" vs "skipped
  silently" is observable.
* Fields that no claim touches (audit hex strings, units, Mongo object
  ids, `quality`, `ingestTs`) are omitted from the record model.
-/

namespace Powerlytic

/-- JS `String.prototype.startsWith` (same meaning as Lean's
`String.startsWith`, stated structurally over the character list so the
kernel can evaluate it). -/
def strStartsWith (s p : String) : Bool := p.data.isPrefixOf s.data

/-! Section: register codec (`modbusTransformer.ts`). -/

/-- The `Endianness` union type. -/
inductive Endianness where
  | ABCD | CDAB | BADC | DCBA | NONE
  deriving DecidableEq, Repr

/-- The two big-endian bytes written by `buf.writeUInt16BE(r)` for
`r < 65536`. -/
def wordBytes (r : ℕ) : List ℕ := [r / 256, r % 256]

/-- Serialize each register word as two big-endian bytes
(`Buffer.concat` of per-register `writeUInt16BE` buffers); fails — as
`writeUInt16BE` throws — when some word is not a valid `uint16`. -/
def toBytesBE (registers : List ℕ) : Option (List ℕ) :=
  if registers.all (fun r => r < 65536) then
    some (registers.flatMap wordBytes)
  else
    none

/-- The `CDAB` loop of `applyEndianness`: steps through the byte list
four bytes at a time swapping word pairs; a trailing group of fewer than
four bytes is left at the zero bytes `Buffer.alloc` initialized
(the loop guard `i + 3 < combined.length` skips the copy). -/
def cdabBytes : List ℕ → List ℕ
  | a :: b :: c :: d :: rest => c :: d :: a :: b :: cdabBytes rest
  | rest => List.replicate rest.length 0

/-- The `BADC` loop of `applyEndianness`: swaps the two bytes of each
16-bit word; a trailing lone byte would be left zeroed (cannot occur for
word-aligned input, but the loop guard behaves that way). -/
def badcBytes : List ℕ → List ℕ
  | a :: b :: rest => b :: a :: badcBytes rest
  | rest => List.replicate rest.length 0

/-- `applyEndianness(registers, endianness)` from
`modbusTransformer.ts`. -/
def applyEndianness (registers : List ℕ) (endianness : Endianness) :
    Option (List ℕ) :=
  (toBytesBE registers).map (fun combined =>
    match endianness with
    | .NONE => combined
    | .ABCD => combined
    | .CDAB => cdabBytes combined
    | .BADC => badcBytes combined
    | .DCBA => combined.reverse)

/-- Big-endian unsigned value of a byte list (what
`readUInt16BE(0)` / `readUInt32BE(0)` / `readBigUInt64BE(0)` compute on
a buffer of the matching length). -/
def beValue (bytes : List ℕ) : ℕ := bytes.foldl (fun acc b => acc * 256 + b) 0

/-- Number of binary digits of `n`, with enough fuel for `n < 2 ^ 128`
(all inputs in this development are below `2 ^ 64`). -/
def bitLenAux : ℕ → ℕ → ℕ
  | 0, _ => 0
  | fuel + 1, n => if n = 0 then 0 else bitLenAux fuel (n / 2) + 1

/-- Binary length of a natural number below `2 ^ 128`. -/
def bitLen (n : ℕ) : ℕ := bitLenAux 128 n

/-- Exact model of the JavaScript conversion `Number(b)` of a
non-negative `BigInt` `b` below `2 ^ 128`: IEEE-754 double rounding to
53 significant bits, round to nearest, ties to even. -/
def natToFloat64 (n : ℕ) : ℕ :=
  if n ≤ 2 ^ 53 then n
  else
    let k := bitLen n - 53
    let q := n / 2 ^ k
    let r := n % 2 ^ k
    let half := 2 ^ (k - 1)
    let q' := if half < r ∨ (r = half ∧ q % 2 = 1) then q + 1 else q
    q' * 2 ^ k

/-- `bufferToUnsignedInt(buffer)` from `modbusTransformer.ts`: reads the
buffer as `UInt16BE` / `UInt32BE` / `Number(BigUInt64BE)` depending on
its length, and returns 0 for any other length. -/
def bufferToUnsignedInt (buffer : List ℕ) : ℕ :=
  if buffer.length = 2 then beValue buffer
  else if buffer.length = 4 then beValue buffer
  else if buffer.length = 8 then natToFloat64 (beValue buffer)
  else 0

/-- Flattened per-read configuration (`ModbusReadConfig`).  The audit
fields `name`, `tag` and `unit` are omitted: no claim concerns them. -/
structure ModbusReadConfig where
  readId : String
  slaveId : String
  startAddress : ℕ
  bitsToRead : ℕ
  scaling : ℚ
  offset : ℚ
  endianness : Endianness

/-- Failure modes of `parseRegistersToValue`: the explicit
"Expected … register(s) …" `Error`, and the `RangeError` thrown by
`writeUInt16BE` on an out-of-range word. -/
inductive ParseError where
  | insufficientRegisters (expected got : ℕ)
  | rangeError
  deriving DecidableEq, Repr

/-- `parseRegistersToValue(registers, bitsToRead)` from
`modbusTransformer.ts`: checks `registers.length` against
`Math.ceil(bitsToRead / 16)`, serializes the first `expected` words
big-endian, extracts the low byte of the first word when
`bitsToRead === 8`, and otherwise reads the whole buffer as an unsigned
big-endian integer.  (This function is defined in the source module but
is not invoked by `transformModbusRead`.) -/
def parseRegistersToValue (registers : List ℕ) (bitsToRead : ℕ) :
    Except ParseError ℕ :=
  let expectedRegisters := (bitsToRead + 15) / 16
  if registers.length < expectedRegisters then
    .error (.insufficientRegisters expectedRegisters registers.length)
  else if (registers.take expectedRegisters).all (fun r => r < 65536) then
    let buffer := (registers.take expectedRegisters).flatMap wordBytes
    if bitsToRead = 8 then .ok (buffer.getD 1 0)
    else .ok (bufferToUnsignedInt buffer)
  else
    .error .rangeError

/-- Result of `transformModbusRead` (fields used by later stages). -/
structure TransformedModbusValue where
  rawValues : List ℕ
  parsedValue : ℕ
  calibratedValue : ℚ

/-- `transformModbusRead(registerArray, config)` from
`modbusTransformer.ts`: applies endianness to the **whole** register
array, parses the resulting buffer with `bufferToUnsignedInt`, and
applies read-level `scaling`/`offset`.  `none` models the `RangeError`
escaping when a register word is not a valid `uint16`.  Note that
`config.bitsToRead` is never consulted. -/
def transformModbusRead (registerArray : List ℕ)
    (config : ModbusReadConfig) : Option TransformedModbusValue :=
  (applyEndianness registerArray config.endianness).map (fun buf =>
    let parsedValue := bufferToUnsignedInt buf
    { rawValues := registerArray
      parsedValue := parsedValue
      calibratedValue := (parsedValue : ℚ) * config.scaling + config.offset })

/-! Section: device configuration tree (`Device` documents, as read by
`buildReadConfigMap` and `transformDevicePayload`). -/

/-- One configured register group (`read` sub-document).  `scaling`,
`offset` and `endianness` are optional in the document; `buildReadConfigMap`
fills JS-falsy defaults. -/
structure ReadCfgDoc where
  readId : String
  startAddress : ℕ
  bitsToRead : ℕ
  scaling : Option ℚ
  offset : Option ℚ
  endianness : Option Endianness

/-- One configured Modbus slave (`modbusSlaves` entry). -/
structure SlaveDoc where
  slaveId : String
  reads : List ReadCfgDoc

/-- Port calibration (`calibrationValue` sub-document). -/
structure Calibration where
  scaling : ℚ
  offset : ℚ

/-- One configured port (`device.ports` entry).  Only the fields the
transformer reads are modelled. -/
structure Port where
  portKey : String
  calibrationValue : Option Calibration
  modbusSlaves : List SlaveDoc

/-- The populated device document, after the Mongo lookup. -/
structure Device where
  ports : List Port
  organizationId : Option String

/-- JS `Map` with string keys, extensionally. -/
def StrMap (α : Type) : Type := String → Option α

/-- `Map.prototype.set` (later insertions overwrite earlier ones). -/
def mapSet {α : Type} (m : StrMap α) (k : String) (v : α) : StrMap α :=
  fun k' => if k' = k then some v else m k'

/-- The empty JS `Map`. -/
def mapEmpty {α : Type} : StrMap α := fun _ => none

/-- JS `read.scaling || 1`: `undefined` (absent) and `0` are falsy. -/
def scalingOrOne (o : Option ℚ) : ℚ :=
  match o with
  | none => 1
  | some q => if q = 0 then 1 else q

/-- `buildReadConfigMap(device)` from `modbusTransformer.ts`: flattens
the port/slave/read tree into a `readId → ModbusReadConfig` map with
defaults `scaling || 1`, `offset || 0`, `endianness || 'NONE'`. -/
def buildReadConfigMap (device : Device) : StrMap ModbusReadConfig :=
  device.ports.foldl (fun m port =>
    port.modbusSlaves.foldl (fun m slave =>
      slave.reads.foldl (fun m read =>
        mapSet m read.readId
          { readId := read.readId
            slaveId := slave.slaveId
            startAddress := read.startAddress
            bitsToRead := read.bitsToRead
            scaling := scalingOrOne read.scaling
            offset := read.offset.getD 0
            endianness := read.endianness.getD .NONE }) m) m) mapEmpty

/-! Section: value transformer (`valueTransformation.service.ts`). -/

/-- One `{ readId, value }` entry of a slave's `registers` array. -/
structure RegisterRead where
  readId : String
  value : List ℕ

/-- One `ModbusSlaveData` entry of an `MI_*` payload value (`slave_id`
already coerced through `String(...)`). -/
structure ModbusSlaveData where
  slave_id : String
  registers : List RegisterRead

/-- A dynamically-typed payload value: `null`/`undefined`, a numeric or
boolean scalar, or the array of per-slave Modbus data. -/
inductive RawValue where
  | null
  | num (q : ℚ)
  | boolVal (b : Bool)
  | modbus (slaves : List ModbusSlaveData)

/-- The fields of a produced `Value` document that the claims concern.
`ts` is the shared measurement timestamp (an abstract instant). -/
structure ValueDoc where
  ts : ℕ
  portKey : String
  portType : String
  readId : Option String
  slaveId : Option String
  rawValue : RawValue
  calibratedValue : RawValue

/-- Observable `console.warn` / `console.error` events of the
transformer, identified by cause. -/
inductive LogEntry where
  | portNotFound (portKey : String)
  | slaveNotFound (slaveId : String)
  | readConfigNotFound (readId : String)
  | transformErrorLog (context : String)
  deriving DecidableEq, Repr

/-- `transformDigitalAnalogValue` from
`valueTransformation.service.ts`: port type is `DIGITAL` exactly when
the key starts with `DI_`, otherwise `ANALOG`; the calibrated value
starts as the raw value and is rescaled only for `ANALOG` ports whose
raw value is a number. -/
def transformDigitalAnalogValue (portKey : String) (rawValue : RawValue)
    (calibration : Calibration) (ts : ℕ) : ValueDoc :=
  let isDigital := strStartsWith portKey "DI_"
  let calibratedValue :=
    if isDigital then rawValue
    else
      match rawValue with
      | .num q => .num (q * calibration.scaling + calibration.offset)
      | other => other
  { ts := ts
    portKey := portKey
    portType := if isDigital then "DIGITAL" else "ANALOG"
    readId := none
    slaveId := none
    rawValue := rawValue
    calibratedValue := calibratedValue }

/-- Concatenate per-item (documents, logs) pairs in order — the shape of
the source's accumulate-in-a-loop pattern. -/
def collectPairs {α β : Type} (l : List (List α × List β)) :
    List α × List β :=
  (l.flatMap Prod.fst, l.flatMap Prod.snd)

/-- Body of the inner `for (const register of slaveData.registers)` loop
of `transformModbusValues`: read-config lookup, decode, and port-level
calibration layered on the read-level calibrated value. -/
def processRegister (readConfigMap : StrMap ModbusReadConfig)
    (portKey slaveId : String) (portCalibration : Calibration) (ts : ℕ)
    (register : RegisterRead) : List ValueDoc × List LogEntry :=
  match readConfigMap register.readId with
  | none => ([], [.readConfigNotFound register.readId])
  | some readConfig =>
    match transformModbusRead register.value readConfig with
    | none => ([], [.transformErrorLog register.readId])
    | some transformed =>
      let finalCalibratedValue :=
        transformed.calibratedValue * portCalibration.scaling +
          portCalibration.offset
      ([{ ts := ts
          portKey := portKey
          portType := "MODBUS"
          readId := some register.readId
          slaveId := some slaveId
          rawValue := .num (transformed.parsedValue : ℚ)
          calibratedValue := .num finalCalibratedValue }], [])

/-- Body of the outer `for (const slaveData of slaveDataArray)` loop of
`transformModbusValues`: the slave must exist in the port's
configuration, then every register read of the slave is processed. -/
def processSlave (port : Port) (readConfigMap : StrMap ModbusReadConfig)
    (portKey : String) (portCalibration : Calibration) (ts : ℕ)
    (slaveData : ModbusSlaveData) : List ValueDoc × List LogEntry :=
  match port.modbusSlaves.find? (fun s => s.slaveId = slaveData.slave_id) with
  | none => ([], [.slaveNotFound slaveData.slave_id])
  | some _ =>
    collectPairs (slaveData.registers.map
      (processRegister readConfigMap portKey slaveData.slave_id
        portCalibration ts))

/-- `transformModbusValues` from `valueTransformation.service.ts`. -/
def transformModbusValues (slaveDataArray : List ModbusSlaveData)
    (portKey : String) (port : Port)
    (readConfigMap : StrMap ModbusReadConfig)
    (portCalibration : Calibration) (ts : ℕ) :
    List ValueDoc × List LogEntry :=
  collectPairs (slaveDataArray.map
    (processSlave port readConfigMap portKey portCalibration ts))

/-- `new Map(device.ports.map(p => [p.portKey, p]))`. -/
def mkPortMap (ports : List Port) : StrMap Port :=
  ports.foldl (fun m p => mapSet m p.portKey p) mapEmpty

/-- One iteration of the `for (const [portKey, rawValue] of
Object.entries(payload.values))` loop of `transformDevicePayload`:
null skip, port lookup, then key-based dispatch.  A non-array value
reaching the Modbus branch throws when iterated and is caught by the
per-port `try`/`catch` (an error log, no documents).  A recognized port
whose key starts with none of `DI_`, `AI_`, `MI_` falls through the
`if`/`else if` chain producing nothing. -/
def processEntry (portMap : StrMap Port)
    (readConfigMap : StrMap ModbusReadConfig) (ts : ℕ)
    (entry : String × RawValue) : List ValueDoc × List LogEntry :=
  let portKey := entry.1
  match entry.2 with
  | .null => ([], [])
  | rawValue =>
    match portMap portKey with
    | none => ([], [.portNotFound portKey])
    | some port =>
      let calibration := port.calibrationValue.getD ⟨1, 0⟩
      if strStartsWith portKey "DI_" || strStartsWith portKey "AI_" then
        ([transformDigitalAnalogValue portKey rawValue calibration ts], [])
      else if strStartsWith portKey "MI_" then
        match rawValue with
        | .modbus slaves =>
          transformModbusValues slaves portKey port readConfigMap
            calibration ts
        | _ => ([], [.transformErrorLog portKey])
      else ([], [])

/-- The incoming device payload (`DevicePayload`).  `values` is the
entry list of the `values` object in insertion order; `ts` is the
optional device-reported timestamp. -/
structure DevicePayload where
  deviceId : String
  ts : Option ℕ
  values : List (String × RawValue)

/-- The two payload-level failures of `transformDevicePayload`. -/
inductive TransformError where
  | deviceNotFound
  | noOrganization
  deriving DecidableEq, Repr

/-- `transformDevicePayload(payload)` from
`valueTransformation.service.ts`.  The Mongo device lookup is passed in
as its result; `now` is the instant `new Date()` would produce.  All
remaining behaviour — organization check, port map, read-config index,
single shared measurement timestamp, and the per-entry loop — is
embedded directly. -/
def transformDevicePayload (payload : DevicePayload)
    (deviceLookup : Option Device) (now : ℕ) :
    Except TransformError (List ValueDoc × List LogEntry) :=
  match deviceLookup with
  | none => .error .deviceNotFound
  | some device =>
    match device.organizationId with
    | none => .error .noOrganization
    | some _ =>
      let portMap := mkPortMap device.ports
      let readConfigMap := buildReadConfigMap device
      let ts := payload.ts.getD now
      .ok (collectPairs (payload.values.map
        (processEntry portMap readConfigMap ts)))

/-- Number of documents of a successful transform (`none` on a
payload-level failure); evaluating it only forces the list spine. -/
def okDocCount (r : Except TransformError (List ValueDoc × List LogEntry)) :
    Option ℕ :=
  match r with
  | .ok out => some out.1.length
  | .error _ => none

/-- Number of documents and number of log entries of a successful
transform. -/
def okCounts (r : Except TransformError (List ValueDoc × List LogEntry)) :
    Option (ℕ × ℕ) :=
  match r with
  | .ok out => some (out.1.length, out.2.length)
  | .error _ => none

/-! Section: shared concrete fixtures. -/

/-- A read configuration with identity calibration, used to exercise the
codec at given width and endianness. -/
def readCfg (bits : ℕ) (e : Endianness) : ModbusReadConfig :=
  { readId := "r"
    slaveId := "1"
    startAddress := 0
    bitsToRead := bits
    scaling := 1
    offset := 0
    endianness := e }

/-! Section: theorems settling the claims. -/

/-- Claim C1 (refuted by the code): the decode used by the pipeline,
`transformModbusRead`, performs no register-count check at all.  Given
one word with `bitsToRead = 32` it silently returns the 16-bit value 1
instead of failing with `InsufficientRegisters`, and with `bitsToRead =
16` the decoded value depends on words beyond the first required one
(`[1]` decodes to 1 but `[1, 2]` decodes to 65538, reading all four
bytes).  The unused source function `parseRegistersToValue` is the one
that fails as the specification describes. -/
theorem C1_no_insufficient_registers_check :
    (transformModbusRead [1] (readCfg 32 .NONE)).map (·.parsedValue)
        = some 1 ∧
    (transformModbusRead [1] (readCfg 16 .NONE)).map (·.parsedValue)
        = some 1 ∧
    (transformModbusRead [1, 2] (readCfg 16 .NONE)).map (·.parsedValue)
        = some 65538 ∧
    parseRegistersToValue [1] 32
        = .error (.insufficientRegisters 2 1) :=
  ⟨by decide, by decide, by decide, rfl⟩

/-- Claim C2 (refuted by the code): `transformModbusRead` has no
`bitsToRead = 8` special case — decoding `[0x1234]` with `bitsToRead =
8` under NONE or ABCD yields the full 16-bit value 4660, not the low
byte 52 the specification requires.  The unused `parseRegistersToValue`
does return the low byte 52. -/
theorem C2_no_8bit_low_byte_extraction :
    (transformModbusRead [0x1234] (readCfg 8 .NONE)).map (·.parsedValue)
        = some 4660 ∧
    (transformModbusRead [0x1234] (readCfg 8 .ABCD)).map (·.parsedValue)
        = some 4660 ∧
    parseRegistersToValue [0x1234] 8 = .ok 52 :=
  ⟨by decide, by decide, rfl⟩

/-- Claim C3 (refuted by the code): the 64-bit decode path converts the
exact `BigInt` register value to a JavaScript double, so values at and
above `2 ^ 53` are rounded.  The four words `0xFFFF,0xFFFF,0xFFFF,0xFFFF`
denote the exact big-endian integer `2 ^ 64 - 1`, but the decode
returns the rounded `2 ^ 64`. -/
theorem C3_64bit_precision_loss :
    (transformModbusRead [65535, 65535, 65535, 65535]
        (readCfg 64 .NONE)).map (·.parsedValue)
        = some 18446744073709551616 ∧
    (applyEndianness [65535, 65535, 65535, 65535] .NONE).map beValue
        = some 18446744073709551615 ∧
    (18446744073709551616 : ℕ) ≠ 18446744073709551615 :=
  ⟨by decide, by decide, by decide⟩

/-- Claim C6: the concrete endianness matrix of the specification holds
of `transformModbusRead`: `[0x272F]` decodes to 10031 under ABCD, and
`[1, 2]` decodes to 65538 / 131073 / 16777728 / 33554688 under
ABCD / CDAB / BADC / DCBA respectively. -/
theorem C6_endianness_matrix :
    (transformModbusRead [0x272F] (readCfg 16 .ABCD)).map (·.parsedValue)
        = some 10031 ∧
    (transformModbusRead [1, 2] (readCfg 32 .ABCD)).map (·.parsedValue)
        = some 65538 ∧
    (transformModbusRead [1, 2] (readCfg 32 .CDAB)).map (·.parsedValue)
        = some 131073 ∧
    (transformModbusRead [1, 2] (readCfg 32 .BADC)).map (·.parsedValue)
        = some 16777728 ∧
    (transformModbusRead [1, 2] (readCfg 32 .DCBA)).map (·.parsedValue)
        = some 33554688 :=
  ⟨by decide, by decide, by decide, by decide, by decide⟩

/-- Word-pair swap as the specification describes the CDAB transform,
amended by what the code forces: adjacent 16-bit words are exchanged
pairwise, and a trailing word with no partner (odd word count) is
replaced by a zero word — the implementation leaves the corresponding
output bytes at the `Buffer.alloc` zero fill instead of copying them. -/
def swapWordPairsZ : List ℕ → List ℕ
  | w1 :: w2 :: rest => w2 :: w1 :: swapWordPairsZ rest
  | [_] => [0]
  | [] => []

theorem swapWordPairsZ_all_lt : ∀ regs : List ℕ,
    regs.all (fun r => r < 65536) = true →
    (swapWordPairsZ regs).all (fun r => r < 65536) = true
  | [], _ => rfl
  | [w], _ => by simp [swapWordPairsZ]
  | w1 :: w2 :: rest, h => by
    simp only [swapWordPairsZ, List.all_cons, Bool.and_eq_true,
      decide_eq_true_eq] at h ⊢
    exact ⟨h.2.1, h.1, swapWordPairsZ_all_lt rest (by
      simp only [List.all_eq_true, decide_eq_true_eq]
      exact fun a ha => by
        have := h.2.2
        simp only [List.all_eq_true, decide_eq_true_eq] at this
        exact this a ha)⟩

theorem cdabBytes_flatMap : ∀ regs : List ℕ,
    cdabBytes (regs.flatMap wordBytes)
      = (swapWordPairsZ regs).flatMap wordBytes
  | [] => rfl
  | [w] => by
    simp [wordBytes, swapWordPairsZ, cdabBytes, List.flatMap]
  | w1 :: w2 :: rest => by
    have ih := cdabBytes_flatMap rest
    simp only [List.flatMap_cons, wordBytes, List.cons_append,
      List.nil_append, swapWordPairsZ, cdabBytes]
    simpa [wordBytes] using ih

/-- Claim C4, counterexample to the claim as stated: a one-word
sequence decoded under CDAB does **not** yield the ABCD value — the
CDAB loop never copies an incomplete trailing 4-byte group, so
`[0x1234]` decodes to 0 under CDAB but to 4660 under ABCD. -/
theorem C4_counterexample :
    (transformModbusRead [0x1234] (readCfg 16 .CDAB)).map (·.parsedValue)
        = some 0 ∧
    (transformModbusRead [0x1234] (readCfg 16 .ABCD)).map (·.parsedValue)
        = some 4660 ∧
    (transformModbusRead [0x1234] (readCfg 16 .CDAB)).map (·.parsedValue)
        ≠ (transformModbusRead [0x1234] (readCfg 16 .ABCD)).map
            (·.parsedValue) :=
  ⟨by decide, by decide, by decide⟩

/-- Claim C4 as amended: for every register-word sequence of valid
`uint16` words, the CDAB transform equals the ABCD serialization of the
word list with adjacent word pairs swapped and a trailing unpaired word
**zeroed** (rather than kept): complete 4-byte groups are word-swapped
with bytes kept in place, and a one-word sequence therefore decodes to
0 under CDAB, not to its ABCD value. -/
theorem C4_amended_cdab_swaps_complete_pairs :
    ∀ regs : List ℕ, regs.all (fun r => r < 65536) = true →
      applyEndianness regs .CDAB
        = applyEndianness (swapWordPairsZ regs) .ABCD := by
  intro regs h
  unfold applyEndianness toBytesBE
  rw [if_pos h, if_pos (swapWordPairsZ_all_lt regs h)]
  simp [cdabBytes_flatMap]

theorem C4_amended_witness :
    ([0x1234, 0x5678].all (fun r => r < 65536) = true) ∧
    applyEndianness [0x1234, 0x5678] .CDAB
      = applyEndianness (swapWordPairsZ [0x1234, 0x5678]) .ABCD :=
  ⟨by decide, C4_amended_cdab_swaps_complete_pairs [0x1234, 0x5678]
    (by decide)⟩

/-- Claim C5: every record emitted for a Modbus channel carries
`calibratedValue = (decoded * readConfig.scaling + readConfig.offset) *
port.scaling + port.offset` — read-level calibration first, port-level
calibration layered on top — where `decoded` is the record's stored
`rawValue`. -/
theorem C5_read_then_port_calibration :
    ∀ (slaveDataArray : List ModbusSlaveData) (portKey : String)
      (port : Port) (readConfigMap : StrMap ModbusReadConfig)
      (portCalibration : Calibration) (ts : ℕ) (doc : ValueDoc),
      doc ∈ (transformModbusValues slaveDataArray portKey port
        readConfigMap portCalibration ts).1 →
      ∃ (rid : String) (cfg : ModbusReadConfig) (n : ℕ),
        doc.readId = some rid ∧ readConfigMap rid = some cfg ∧
        doc.rawValue = .num (n : ℚ) ∧
        doc.calibratedValue
          = .num (((n : ℚ) * cfg.scaling + cfg.offset) *
              portCalibration.scaling + portCalibration.offset) := by
  intro sda portKey port m pc ts doc hmem
  simp only [transformModbusValues, collectPairs, List.mem_flatMap,
    List.mem_map] at hmem
  obtain ⟨pair, ⟨sd, hsd, rfl⟩, hdoc⟩ := hmem
  unfold processSlave at hdoc
  cases hfind : port.modbusSlaves.find?
      (fun s => s.slaveId = sd.slave_id) with
  | none => rw [hfind] at hdoc; simp at hdoc
  | some sc =>
    rw [hfind] at hdoc
    simp only [collectPairs, List.mem_flatMap, List.mem_map] at hdoc
    obtain ⟨pair2, ⟨reg, hreg, rfl⟩, hdoc⟩ := hdoc
    unfold processRegister at hdoc
    cases hcfg : m reg.readId with
    | none => rw [hcfg] at hdoc; simp at hdoc
    | some cfg =>
      rw [hcfg] at hdoc
      dsimp only at hdoc
      cases htr : transformModbusRead reg.value cfg with
      | none => rw [htr] at hdoc; simp at hdoc
      | some t =>
        rw [htr] at hdoc
        simp only [List.mem_singleton] at hdoc
        subst hdoc
        refine ⟨reg.readId, cfg, t.parsedValue, rfl, hcfg, rfl, ?_⟩
        have hcal : t.calibratedValue
            = (t.parsedValue : ℚ) * cfg.scaling + cfg.offset := by
          unfold transformModbusRead at htr
          cases happ : applyEndianness reg.value cfg.endianness with
          | none => rw [happ] at htr; simp at htr
          | some buf =>
            rw [happ] at htr
            simp only [Option.map_some', Option.some.injEq] at htr
            rw [← htr]
        simp [hcal]

/-- Modbus payload fragment used to instantiate claim C5: one slave,
one read of the single register word 5. -/
def c5Slaves : List ModbusSlaveData :=
  [{ slave_id := "1", registers := [{ readId := "r1", value := [5] }] }]

/-- A Modbus port whose slave "1" is configured. -/
def c5Port : Port :=
  { portKey := "MI_1"
    calibrationValue := some ⟨10, 0⟩
    modbusSlaves := [{ slaveId := "1", reads := [] }] }

/-- Read-configuration index holding read "r1" with scaling 2,
offset 1. -/
def c5Map : StrMap ModbusReadConfig :=
  mapSet mapEmpty "r1"
    { readId := "r1", slaveId := "1", startAddress := 0, bitsToRead := 16
      scaling := 2, offset := 1, endianness := .NONE }

/-- The single record the C5 fixture produces (decoded raw 5, read
calibration 5*2+1 = 11, port calibration 11*10+0 = 110). -/
def c5Doc : ValueDoc :=
  { ts := 7
    portKey := "MI_1"
    portType := "MODBUS"
    readId := some "r1"
    slaveId := some "1"
    rawValue := .num ((5 : ℕ) : ℚ)
    calibratedValue := .num ((((5 : ℕ) : ℚ) * 2 + 1) * 10 + 0) }

theorem C5_witness :
    (∃ (rid : String) (cfg : ModbusReadConfig) (n : ℕ),
      c5Doc.readId = some rid ∧ c5Map rid = some cfg ∧
      c5Doc.rawValue = .num (n : ℚ) ∧
      c5Doc.calibratedValue
        = .num (((n : ℚ) * cfg.scaling + cfg.offset) * (10 : ℚ) + 0)) ∧
    c5Doc.calibratedValue = .num 110 :=
  ⟨C5_read_then_port_calibration c5Slaves "MI_1" c5Port c5Map ⟨10, 0⟩ 7
      c5Doc (by
        have h : (transformModbusValues c5Slaves "MI_1" c5Port c5Map
            ⟨10, 0⟩ 7).1 = [c5Doc] := rfl
        rw [h]
        exact List.mem_cons_self _ _),
    by
      show RawValue.num ((((5 : ℕ) : ℚ) * 2 + 1) * 10 + 0)
        = RawValue.num 110
      norm_num⟩

/-- A device with an analog port `AI_1` and a Modbus port `MI_1` whose
slave "1" has one configured read `"known"`. -/
def c7Device : Device :=
  { ports := [
      { portKey := "AI_1", calibrationValue := some ⟨2, 1⟩
        modbusSlaves := [] },
      { portKey := "MI_1", calibrationValue := none
        modbusSlaves := [
          { slaveId := "1"
            reads := [{ readId := "known", startAddress := 0
                        bitsToRead := 16, scaling := none, offset := none
                        endianness := none }] }] }]
    organizationId := some "org1" }

/-- A payload with one valid analog reading and one Modbus reading that
references the non-existent `readId` "missing". -/
def c7Payload : DevicePayload :=
  { deviceId := "d1"
    ts := some 42
    values := [("AI_1", .num 3),
               ("MI_1", .modbus [{ slave_id := "1"
                                   registers := [{ readId := "missing"
                                                   value := [1] }] }])] }

/-- Claim C7: once the device resolves and has an organization, the
transform never fails — per-channel problems are absorbed channel by
channel — and concretely the payload with one valid analog reading and
one Modbus reading with an unknown `readId` produces exactly one
record. -/
theorem C7_per_channel_errors_do_not_escalate :
    (∀ (payload : DevicePayload) (device : Device) (now : ℕ),
        device.organizationId.isSome = true →
        ∃ out, transformDevicePayload payload (some device) now
          = .ok out) ∧
    okDocCount (transformDevicePayload c7Payload (some c7Device) 0)
      = some 1 := by
  constructor
  · intro payload device now h
    obtain ⟨o, ho⟩ := Option.isSome_iff_exists.mp h
    refine ⟨collectPairs (payload.values.map
      (processEntry (mkPortMap device.ports) (buildReadConfigMap device)
        (payload.ts.getD now))), ?_⟩
    simp [transformDevicePayload, ho]
  · decide

theorem C7_witness :
    ∃ out, transformDevicePayload c7Payload (some c7Device) 0
      = .ok out :=
  C7_per_channel_errors_do_not_escalate.1 c7Payload c7Device 0 (by decide)

/-- Claim C8: for a digital channel (key prefixed `DI_`) the emitted
record's `calibratedValue` equals the raw value untouched, whatever the
port calibration; for an analog channel (key prefixed `AI_`, hence not
`DI_`) carrying a numeric reading, `calibratedValue = rawValue *
scaling + offset`. -/
theorem C8_digital_passthrough_analog_affine :
    (∀ (portKey : String) (rawValue : RawValue) (cal : Calibration)
        (ts : ℕ),
        strStartsWith portKey "DI_" = true →
        (transformDigitalAnalogValue portKey rawValue cal
            ts).calibratedValue = rawValue ∧
        (transformDigitalAnalogValue portKey rawValue cal
            ts).rawValue = rawValue) ∧
    (∀ (portKey : String) (q : ℚ) (cal : Calibration) (ts : ℕ),
        strStartsWith portKey "AI_" = true →
        strStartsWith portKey "DI_" = false →
        (transformDigitalAnalogValue portKey (.num q) cal
            ts).calibratedValue
          = .num (q * cal.scaling + cal.offset)) := by
  constructor
  · intro portKey rawValue cal ts h
    simp [transformDigitalAnalogValue, h]
  · intro portKey q cal ts _ hdi
    simp [transformDigitalAnalogValue, hdi]

theorem C8_witness :
    ((transformDigitalAnalogValue "DI_1" (.boolVal true) ⟨10, 3⟩
        0).calibratedValue = .boolVal true ∧
     (transformDigitalAnalogValue "DI_1" (.boolVal true) ⟨10, 3⟩
        0).rawValue = .boolVal true) ∧
    (transformDigitalAnalogValue "AI_1" (.num 5) ⟨10, 3⟩
        0).calibratedValue = .num (5 * (10 : ℚ) + 3) :=
  ⟨C8_digital_passthrough_analog_affine.1 "DI_1" (.boolVal true) ⟨10, 3⟩
      0 (by decide),
   C8_digital_passthrough_analog_affine.2 "AI_1" 5 ⟨10, 3⟩ 0 (by decide)
      (by decide)⟩

theorem processRegister_ts (m : StrMap ModbusReadConfig)
    (pk sid : String) (pc : Calibration) (ts : ℕ) (reg : RegisterRead)
    (doc : ValueDoc) (h : doc ∈ (processRegister m pk sid pc ts reg).1) :
    doc.ts = ts := by
  unfold processRegister at h
  cases hc : m reg.readId with
  | none => rw [hc] at h; simp at h
  | some cfg =>
    rw [hc] at h
    dsimp only at h
    cases ht : transformModbusRead reg.value cfg with
    | none => rw [ht] at h; simp at h
    | some t =>
      rw [ht] at h
      simp only [List.mem_singleton] at h
      subst h
      rfl

theorem transformModbusValues_ts (sda : List ModbusSlaveData)
    (pk : String) (port : Port) (m : StrMap ModbusReadConfig)
    (pc : Calibration) (ts : ℕ) (doc : ValueDoc)
    (h : doc ∈ (transformModbusValues sda pk port m pc ts).1) :
    doc.ts = ts := by
  simp only [transformModbusValues, collectPairs, List.mem_flatMap,
    List.mem_map] at h
  obtain ⟨pair, ⟨sd, hsd, rfl⟩, hdoc⟩ := h
  unfold processSlave at hdoc
  split at hdoc
  · simp at hdoc
  · simp only [collectPairs, List.mem_flatMap, List.mem_map] at hdoc
    obtain ⟨pair2, ⟨reg, hreg, rfl⟩, hdoc⟩ := hdoc
    exact processRegister_ts m pk _ pc ts reg doc hdoc

theorem processEntry_ts (pm : StrMap Port)
    (m : StrMap ModbusReadConfig) (ts : ℕ) (e : String × RawValue)
    (doc : ValueDoc) (h : doc ∈ (processEntry pm m ts e).1) :
    doc.ts = ts := by
  unfold processEntry at h
  split at h
  · simp at h
  · split at h
    · -- the value is a Modbus slave-data array
      dsimp only at h
      split at h
      · simp at h
      · split at h
        · simp only [List.mem_singleton] at h
          subst h
          rfl
        · split at h
          · exact transformModbusValues_ts _ _ _ _ _ _ _ h
          · simp at h
    · -- the value is a scalar
      dsimp only at h
      split at h
      · simp at h
      · split at h
        · simp only [List.mem_singleton] at h
          subst h
          rfl
        · split at h
          · simp at h
          · simp at h

/-- Claim C9: every record of one successful transform call carries the
same measurement timestamp — the payload's `ts` when supplied,
otherwise the single current-time value taken at the start of the
call. -/
theorem C9_shared_measurement_timestamp :
    ∀ (payload : DevicePayload) (deviceLookup : Option Device)
      (now : ℕ) (out : List ValueDoc × List LogEntry) (doc : ValueDoc),
      transformDevicePayload payload deviceLookup now = .ok out →
      doc ∈ out.1 → doc.ts = payload.ts.getD now := by
  intro payload dl now out doc hok hmem
  cases dl with
  | none => simp [transformDevicePayload] at hok
  | some device =>
    cases ho : device.organizationId with
    | none => simp [transformDevicePayload, ho] at hok
    | some o =>
      simp only [transformDevicePayload, ho, Except.ok.injEq] at hok
      subst hok
      simp only [collectPairs, List.mem_flatMap, List.mem_map] at hmem
      obtain ⟨pair, ⟨e, he, rfl⟩, hdoc⟩ := hmem
      exact processEntry_ts _ _ _ e doc hdoc

/-- Device used to instantiate claims C9 and C10. -/
def c9Device : Device :=
  { ports := [{ portKey := "DI_1", calibrationValue := none
                modbusSlaves := [] }]
    organizationId := some "org" }

/-- Payload with a device-supplied timestamp of 42. -/
def c9Payload : DevicePayload :=
  { deviceId := "d9", ts := some 42, values := [("DI_1", .num 1)] }

/-- The record the C9 fixture produces. -/
def c9Doc : ValueDoc :=
  { ts := 42, portKey := "DI_1", portType := "DIGITAL", readId := none
    slaveId := none, rawValue := .num 1, calibratedValue := .num 1 }

theorem C9_witness : c9Doc.ts = c9Payload.ts.getD 0 :=
  C9_shared_measurement_timestamp c9Payload (some c9Device) 0
    ([c9Doc], []) c9Doc rfl (List.mem_cons_self _ _)

/-- Claim C10: dispatch is decided by the key prefix alone — an entry
whose key is a recognized port but starts with none of `DI_`, `AI_`,
`MI_` yields no record and no log entry whatever its value, and a
`null` entry is likewise dropped silently before the port lookup. -/
theorem C10_dispatch_solely_by_key :
    (∀ (device : Device) (orgId deviceId : String) (pts : Option ℕ)
        (now : ℕ) (portKey : String) (rawValue : RawValue) (port : Port),
        device.organizationId = some orgId →
        mkPortMap device.ports portKey = some port →
        strStartsWith portKey "DI_" = false →
        strStartsWith portKey "AI_" = false →
        strStartsWith portKey "MI_" = false →
        transformDevicePayload ⟨deviceId, pts, [(portKey, rawValue)]⟩
          (some device) now = .ok ([], [])) ∧
    (∀ (device : Device) (orgId deviceId : String) (pts : Option ℕ)
        (now : ℕ) (portKey : String),
        device.organizationId = some orgId →
        transformDevicePayload ⟨deviceId, pts, [(portKey, .null)]⟩
          (some device) now = .ok ([], [])) := by
  constructor
  · intro device orgId deviceId pts now portKey rawValue port ho hport
      hdi hai hmi
    cases rawValue with
    | null => simp [transformDevicePayload, ho, processEntry,
        collectPairs]
    | num q => simp [transformDevicePayload, ho, processEntry,
        collectPairs, hport, hdi, hai, hmi]
    | boolVal b => simp [transformDevicePayload, ho, processEntry,
        collectPairs, hport, hdi, hai, hmi]
    | modbus s => simp [transformDevicePayload, ho, processEntry,
        collectPairs, hport, hdi, hai, hmi]
  · intro device orgId deviceId pts now portKey ho
    simp [transformDevicePayload, ho, processEntry, collectPairs]

/-- Device with a recognized port whose key has an unhandled prefix. -/
def c10Device : Device :=
  { ports := [{ portKey := "XX_1", calibrationValue := none
                modbusSlaves := [] },
              { portKey := "AI_1", calibrationValue := none
                modbusSlaves := [] }]
    organizationId := some "org" }

theorem C10_witness :
    transformDevicePayload ⟨"d", none, [("XX_1", .num 3)]⟩
        (some c10Device) 5 = .ok ([], []) ∧
    transformDevicePayload ⟨"d", none, [("AI_1", .null)]⟩
        (some c10Device) 5 = .ok ([], []) :=
  ⟨C10_dispatch_solely_by_key.1 c10Device "org" "d" none 5 "XX_1"
      (.num 3) ⟨"XX_1", none, []⟩ rfl rfl (by decide) (by decide)
      (by decide),
   C10_dispatch_solely_by_key.2 c10Device "org" "d" none 5 "AI_1" rfl⟩

end Powerlytic
